import Mathlib

/-!
Verification development for the Dev-Janitor tool detection engine
(`src-tauri/src/detection/mod.rs`).

The Rust module is embedded shallowly:

* `ToolVersion`, `ToolInfo`, `ToolRule` mirror the structs of the source.
* Regular expressions of the rule catalog are embedded as values of a small
  `Reg` AST covering exactly the constructs the catalog uses (literals,
  character classes with `*`/`+`, `?`, one capture group); `mtch` is a
  backtracking matcher producing candidate results in the priority order of
  a leftmost-first (Perl-like, as in the Rust `regex` crate) engine, and
  `findCapture` scans start positions left to right, as `Regex::captures`
  does.  Pattern compilation (`Regex::new(..).ok()`) is abstracted by
  `RegexSrc`: a pattern either compiled to a `Reg` or was rejected.
* `execute_command` is modeled as a function of the child process behavior
  (`ChildBehavior`): the source calls `Command::output()` with no timeout,
  so a child that never terminates makes the call itself never return,
  which the model records as the outcome `ExecOutcome.diverges`; an `Err`
  from `output()` (spawn failure) becomes `ExecOutcome.failure`
  (`.ok()?` returns `None`); a child that exits yields its captured
  stdout/stderr regardless of exit status, exactly as in the source, which
  never inspects `output.status`.
* `detect_tool` is embedded over an explicit environment `Env` giving the
  ambient machine state: `Env.resolve` is `which::which`, `Env.exec` is
  what `execute_command` returns for a command that does return, and
  `Env.win` carries the filesystem/environment-variable state read by the
  Windows shadow-path code (`get_windows_extra_paths`), which is part of
  the source (`#[cfg(target_os = "windows")]`) and is included in the
  model.
-/

/-- Represents a detected tool version (struct `ToolVersion`). -/
structure ToolVersion where
  version : String
  path : String
  is_active : Bool
deriving DecidableEq

/-- Represents a detected development tool (struct `ToolInfo`). -/
structure ToolInfo where
  id : String
  name : String
  category : String
  versions : List ToolVersion
  status : String
deriving DecidableEq

/-- Regular-expression AST covering the constructs used by the rule
catalog: `eps` the empty pattern, `lit c` a literal character, `many1 p`
a character class (as a character predicate) repeated one or more times
(`[p]+`, e.g. `\d+`), `many0 p` the same repeated zero or more times,
`seq`, `opt` (`?`) and `group` the single capture group. -/
inductive Reg where
  | eps
  | lit (c : Char)
  | many1 (p : Char → Bool)
  | many0 (p : Char → Bool)
  | seq (a b : Reg)
  | opt (a : Reg)
  | group (a : Reg)

/-- Result of compiling a pattern string: either the compiled AST or a
compile failure (`Regex::new(pattern)` returned `Err`). -/
inductive RegexSrc where
  | ok (r : Reg)
  | bad

/-- Length of the maximal run of characters satisfying `p` at the head
of `s`. -/
def charRun (p : Char → Bool) (s : List Char) : Nat :=
  (s.takeWhile p).length

/-- Backtracking matcher.  `mtch r s` returns the list of possible
outcomes of matching `r` against a prefix of `s`, each outcome giving the
remaining input and the capture-group-1 content, in the priority order of
a leftmost-first backtracking engine (greedy alternatives first). -/
def mtch : Reg → List Char → List (List Char × Option (List Char))
  | .eps, s => [(s, none)]
  | .lit c, s =>
    match s with
    | [] => []
    | x :: xs => if x = c then [(xs, none)] else []
  | .many1 p, s =>
    let n := charRun p s
    (List.range n).map (fun k => (s.drop (n - k), none))
  | .many0 p, s =>
    let n := charRun p s
    (List.range (n + 1)).map (fun k => (s.drop (n - k), none))
  | .seq a b, s =>
    (mtch a s).flatMap (fun pr =>
      (mtch b pr.1).map (fun pr2 =>
        (pr2.1, match pr.2 with | some x => some x | none => pr2.2)))
  | .opt a, s => mtch a s ++ [(s, none)]
  | .group a, s =>
    (mtch a s).map (fun pr => (pr.1, some (s.take (s.length - pr.1.length))))

/-- Leftmost search, as `Regex::captures`: try to match at each start
position from the left; at the first position with a match, return the
highest-priority outcome's capture group 1. -/
def findCapture (r : Reg) : List Char → Option (Option (List Char))
  | [] =>
    match mtch r [] with
    | pr :: _ => some pr.2
    | [] => none
  | x :: xs =>
    match mtch r (x :: xs) with
    | pr :: _ => some pr.2
    | [] => findCapture r xs

/-- The code-point ranges of the Unicode general category `Nd` (decimal
number), per Unicode 16.0 — `DerivedGeneralCategory.txt`, category `Nd`.
Each pair is an inclusive range. -/
def ndRanges : List (Nat × Nat) :=
  [(0x0030, 0x0039), (0x0660, 0x0669), (0x06F0, 0x06F9), (0x07C0, 0x07C9),
   (0x0966, 0x096F), (0x09E6, 0x09EF), (0x0A66, 0x0A6F), (0x0AE6, 0x0AEF),
   (0x0B66, 0x0B6F), (0x0BE6, 0x0BEF), (0x0C66, 0x0C6F), (0x0CE6, 0x0CEF),
   (0x0D66, 0x0D6F), (0x0DE6, 0x0DEF), (0x0E50, 0x0E59), (0x0ED0, 0x0ED9),
   (0x0F20, 0x0F29), (0x1040, 0x1049), (0x1090, 0x1099), (0x17E0, 0x17E9),
   (0x1810, 0x1819), (0x1946, 0x194F), (0x19D0, 0x19D9), (0x1A80, 0x1A89),
   (0x1A90, 0x1A99), (0x1B50, 0x1B59), (0x1BB0, 0x1BB9), (0x1C40, 0x1C49),
   (0x1C50, 0x1C59), (0xA620, 0xA629), (0xA8D0, 0xA8D9), (0xA900, 0xA909),
   (0xA9D0, 0xA9D9), (0xA9F0, 0xA9F9), (0xAA50, 0xAA59), (0xABF0, 0xABF9),
   (0xFF10, 0xFF19), (0x104A0, 0x104A9), (0x10D30, 0x10D39), (0x10D40, 0x10D49),
   (0x11066, 0x1106F), (0x110F0, 0x110F9), (0x11136, 0x1113F), (0x111D0, 0x111D9),
   (0x112F0, 0x112F9), (0x11450, 0x11459), (0x114D0, 0x114D9), (0x11650, 0x11659),
   (0x116C0, 0x116C9), (0x116D0, 0x116E3), (0x11730, 0x11739), (0x118E0, 0x118E9),
   (0x11950, 0x11959), (0x11BF0, 0x11BF9), (0x11C50, 0x11C59), (0x11D50, 0x11D59),
   (0x11DA0, 0x11DA9), (0x11F50, 0x11F59), (0x16A60, 0x16A69), (0x16AC0, 0x16AC9),
   (0x16B50, 0x16B59), (0x16D70, 0x16D79), (0x1CCF0, 0x1CCF9), (0x1D7CE, 0x1D7FF),
   (0x1E140, 0x1E149), (0x1E2F0, 0x1E2F9), (0x1E4F0, 0x1E4F9), (0x1E5F1, 0x1E5FA),
   (0x1E950, 0x1E959), (0x1FBF0, 0x1FBF9)]

/-- The class `\d` of the `regex` crate, which is Unicode-aware by
default: any Unicode decimal digit (`\p{Nd}`), not just ASCII `0`-`9`.
The table is `Nd` of Unicode 16.0; `Nd` only grows between Unicode
versions, and all version text the catalog's tools print uses ASCII
digits, so the concrete evaluations below are version-independent. -/
def isNd (c : Char) : Bool :=
  ndRanges.any (fun r => r.1 ≤ c.toNat && c.toNat ≤ r.2)

/-- Fallback pattern of `extract_version`: `(\d+\.\d+\.?\d*)`. -/
def genericReg : Reg :=
  .group (.seq (.many1 isNd)
    (.seq (.lit '.')
      (.seq (.many1 isNd)
        (.seq (.opt (.lit '.')) (.many0 isNd)))))

/-- Extract version from output using regex (fn `extract_version`).
With a pattern: a compile failure is `None` (`Regex::new(pattern).ok()?`);
otherwise the leftmost match's capture group 1, or `None` when nothing
matches.  Without a pattern: the same with the generic fallback pattern. -/
def extract_version (output : String) (pattern : Option RegexSrc) : Option String :=
  match pattern with
  | some RegexSrc.bad => none
  | some (RegexSrc.ok r) =>
    match findCapture r output.data with
    | none => none
    | some cap => cap.map (fun l => String.mk l)
  | none =>
    match findCapture genericReg output.data with
    | none => none
    | some cap => cap.map (fun l => String.mk l)

/-- The Unicode `White_Space` code points, the set recognized by Rust's
`char::is_whitespace` (used by `str::trim`). -/
def wsChars : List Char :=
  [' ', '\t', '\n', Char.ofNat 0x0B, Char.ofNat 0x0C, '\r',
   Char.ofNat 0x85, Char.ofNat 0xA0, Char.ofNat 0x1680,
   Char.ofNat 0x2000, Char.ofNat 0x2001, Char.ofNat 0x2002,
   Char.ofNat 0x2003, Char.ofNat 0x2004, Char.ofNat 0x2005,
   Char.ofNat 0x2006, Char.ofNat 0x2007, Char.ofNat 0x2008,
   Char.ofNat 0x2009, Char.ofNat 0x200A, Char.ofNat 0x2028,
   Char.ofNat 0x2029, Char.ofNat 0x202F, Char.ofNat 0x205F,
   Char.ofNat 0x3000]

/-- Rust `char::is_whitespace`. -/
def isWS (c : Char) : Bool := wsChars.contains c

/-- Rust `str::trim`: drop leading and trailing whitespace. -/
def trimList (l : List Char) : List Char :=
  ((l.dropWhile isWS).reverse.dropWhile isWS).reverse

/-- Stream choice of `detect_tool`:
`if stdout.trim().is_empty() { &stderr } else { &stdout }`. -/
def chooseOutput (stdout stderr : String) : String :=
  if (trimList stdout.data).isEmpty then stderr else stdout

/-- Behavior of the child process spawned by `execute_command`:
`spawnFail` — `Command::output()` returns `Err`; `hang` — the child never
terminates; `exits ok out err` — the child exits (with `status.success()`
equal to `ok`) after writing `out` to stdout and `err` to stderr. -/
inductive ChildBehavior where
  | spawnFail
  | hang
  | exits (ok : Bool) (stdout stderr : String)

/-- Observable outcome of a call to `execute_command`: `diverges` — the
call never returns; `failure` — it returns `None`; `success out err` — it
returns `Some((out, err))`. -/
inductive ExecOutcome where
  | diverges
  | failure
  | success (stdout stderr : String)
deriving DecidableEq

/-- Execute a command and capture output (fn `execute_command`).  The
source runs `Command::new(cmd).args(args).output().ok()?` with no timeout,
so a hanging child makes the call itself hang; spawn failure becomes
`None`; an exiting child yields its streams with the exit status
discarded (the source never reads `output.status`). -/
def execute_command : ChildBehavior → ExecOutcome
  | ChildBehavior.spawnFail => ExecOutcome.failure
  | ChildBehavior.hang => ExecOutcome.diverges
  | ChildBehavior.exits _ out err => ExecOutcome.success out err

/-- The return value of a terminated `execute_command` call, as
`detect_tool` observes it (`Option<(String, String)>`).  `diverges` has no
return value; it is mapped to `none` here only to keep the bridge total —
environments built from terminating children never hit that branch. -/
def execResult : ExecOutcome → Option (String × String)
  | ExecOutcome.diverges => none
  | ExecOutcome.failure => none
  | ExecOutcome.success out err => some (out, err)

/-- Tool detection rule (struct `ToolRule`). -/
structure ToolRule where
  id : String
  name : String
  category : String
  commands : List String
  version_args : List String
  version_regex : Option RegexSrc

/-- Machine state read by the Windows shadow-path code: the environment
variables consulted by `get_windows_extra_paths` and the filesystem
queries it performs (`Path::exists`, `fs::read_dir`, the latter returning
the full paths of the directory entries that were read successfully). -/
structure WinFs where
  pathExists : String → Bool
  readDir : String → Option (List String)
  userprofile : Option String
  programfiles : Option String
  localappdata : Option String
  nvm_home : Option String

/-- Ambient machine state of one scan: `resolve` is `which::which`
(`find_command_path`), `exec cmd args` is the value `execute_command(cmd,
args)` returns for a probe that does return, and `win` is the state read
by the shadow-path code. -/
structure Env where
  resolve : String → Option String
  exec : String → List String → Option (String × String)
  win : WinFs

/-- Get extra paths to check on Windows for multi-version detection
(fn `get_windows_extra_paths`). -/
def get_windows_extra_paths (w : WinFs) (tool_id : String) : List String :=
  let home := w.userprofile.getD ""
  let program_files := w.programfiles.getD "C:\\Program Files"
  let local_app_data := w.localappdata.getD ""
  if tool_id = "python" then
    [local_app_data ++ "\\Python\\Python39",
     local_app_data ++ "\\Python\\Python310",
     local_app_data ++ "\\Python\\Python311",
     local_app_data ++ "\\Python\\Python312",
     local_app_data ++ "\\Python\\Python313",
     home ++ "\\Anaconda3",
     home ++ "\\Miniconda3",
     home ++ "\\.pyenv\\pyenv-win\\versions"]
  else if tool_id = "node" then
    [(w.nvm_home.getD (local_app_data ++ "\\nvm")) ++ "\\nvm"]
  else if tool_id = "java" then
    let java_dir := program_files ++ "\\Java"
    if w.pathExists java_dir then
      match w.readDir java_dir with
      | some entries => entries.map (fun e => e ++ "\\bin")
      | none => []
    else []
  else []

/-- The candidate loop of `detect_tool` (`for cmd in rule.commands`):
resolve the command; skip a path already in the seen-path set; otherwise
insert the path into the set *before* probing, probe, and on output push a
`ToolVersion` whose `is_active` is `versions.is_empty()` at push time. -/
def candLoop (env : Env) (rule : ToolRule) :
    List String → List ToolVersion → List String → List ToolVersion × List String
  | [], vs, found => (vs, found)
  | c :: cs, vs, found =>
    match env.resolve c with
    | none => candLoop env rule cs vs found
    | some path =>
      if path ∈ found then candLoop env rule cs vs found
      else
        match env.exec c rule.version_args with
        | none => candLoop env rule cs vs (path :: found)
        | some (stdout, stderr) =>
          let output := chooseOutput stdout stderr
          let version := (extract_version output rule.version_regex).getD "unknown"
          candLoop env rule cs
            (vs ++ [{ version := version, path := path, is_active := vs.isEmpty }])
            (path :: found)

/-- The shadow-path loop of `detect_tool` (the `#[cfg(windows)]` block):
for each extra path that exists and is not in the seen-path set, probe
`extra_path.join(rule.commands[0])` if it exists, and on output push a
`ToolVersion` with the extra path and `is_active = false`.  The loop never
inserts into the seen-path set. -/
def shadowLoop (env : Env) (rule : ToolRule) (found : List String) :
    List String → List ToolVersion → List ToolVersion
  | [], vs => vs
  | e :: es, vs =>
    if env.win.pathExists e ∧ e ∉ found then
      let cmd := e ++ "\\" ++ rule.commands.headD ""
      if env.win.pathExists cmd then
        match env.exec cmd rule.version_args with
        | none => shadowLoop env rule found es vs
        | some (stdout, stderr) =>
          let output := chooseOutput stdout stderr
          let version := (extract_version output rule.version_regex).getD "unknown"
          shadowLoop env rule found es
            (vs ++ [{ version := version, path := e, is_active := false }])
      else shadowLoop env rule found es vs
    else shadowLoop env rule found es vs

/-- The candidate-loop phase of `detect_tool`, started from the empty
version list and empty seen-path set. -/
def detectCandidates (env : Env) (rule : ToolRule) : List ToolVersion × List String :=
  candLoop env rule rule.commands [] []

/-- The full `versions` vector built by `detect_tool`: candidate versions
first, then shadow-path versions. -/
def detectVersions (env : Env) (rule : ToolRule) : List ToolVersion :=
  let pr := detectCandidates env rule
  shadowLoop env rule pr.2 (get_windows_extra_paths env.win rule.id) pr.1

/-- Detect a single tool (fn `detect_tool`): `None` when no versions were
recorded, otherwise a `ToolInfo` with status `"multiple_versions"` when
`versions.len() > 1` and `"installed"` otherwise. -/
def detect_tool (env : Env) (rule : ToolRule) : Option ToolInfo :=
  let versions := detectVersions env rule
  if versions.isEmpty then none
  else
    some { id := rule.id, name := rule.name, category := rule.category,
           versions := versions,
           status := if 1 < versions.length then "multiple_versions" else "installed" }

/-- Concatenation of a list of patterns. -/
def rcat (l : List Reg) : Reg := l.foldr Reg.seq Reg.eps

/-- A string as a pattern of literal characters. -/
def rstr (s : String) : Reg := rcat (s.data.map Reg.lit)

/-- The pattern `\d+`. -/
def d1 : Reg := Reg.many1 isNd

/-- The pattern `\d*`. -/
def d0 : Reg := Reg.many0 isNd

/-- The literal `\.`. -/
def dotL : Reg := Reg.lit '.'

/-- The capture `(\d+\.\d+\.\d+)`. -/
def semverGrp : Reg := Reg.group (rcat [d1, dotL, d1, dotL, d1])

/-- The capture `(\d+\.\d+)` (Make's pattern). -/
def twoGrp : Reg := Reg.group (rcat [d1, dotL, d1])

/-- The capture `(\d+[\.\d+]*)` (Java's pattern): one digit run followed
by any run over the class `[\.\d+]`. -/
def javaGrp : Reg :=
  Reg.group (rcat [d1, Reg.many0 (fun c => c == '.' || c == '+' || isNd c)])

/-- A pattern string that compiled successfully. -/
def rxOk (r : Reg) : Option RegexSrc := some (RegexSrc.ok r)

/-- Rule `node` — pattern `v?(\d+\.\d+\.\d+)`. -/
def nodeRule : ToolRule :=
  { id := "node", name := "Node.js", category := "runtime",
    commands := ["node"], version_args := ["--version"],
    version_regex := rxOk (rcat [Reg.opt (Reg.lit 'v'), semverGrp]) }

/-- Rule `python` — pattern `Python (\d+\.\d+\.\d+)`. -/
def pythonRule : ToolRule :=
  { id := "python", name := "Python", category := "runtime",
    commands := ["python", "python3", "py"], version_args := ["--version"],
    version_regex := rxOk (rcat [rstr "Python ", semverGrp]) }

/-- Rule `java` — pattern `version "(\d+[\.\d+]*)"`. -/
def javaRule : ToolRule :=
  { id := "java", name := "Java", category := "runtime",
    commands := ["java"], version_args := ["-version"],
    version_regex := rxOk (rcat [rstr "version \"", javaGrp, Reg.lit '"']) }

/-- Rule `go` — pattern `go(\d+\.\d+\.?\d*)`. -/
def goRule : ToolRule :=
  { id := "go", name := "Go", category := "runtime",
    commands := ["go"], version_args := ["version"],
    version_regex := rxOk (rcat [rstr "go", genericReg]) }

/-- Rule `rust` — pattern `rustc (\d+\.\d+\.\d+)`. -/
def rustRule : ToolRule :=
  { id := "rust", name := "Rust", category := "runtime",
    commands := ["rustc"], version_args := ["--version"],
    version_regex := rxOk (rcat [rstr "rustc ", semverGrp]) }

/-- Rule `ruby` — pattern `ruby (\d+\.\d+\.\d+)`. -/
def rubyRule : ToolRule :=
  { id := "ruby", name := "Ruby", category := "runtime",
    commands := ["ruby"], version_args := ["--version"],
    version_regex := rxOk (rcat [rstr "ruby ", semverGrp]) }

/-- Rule `php` — pattern `PHP (\d+\.\d+\.\d+)`. -/
def phpRule : ToolRule :=
  { id := "php", name := "PHP", category := "runtime",
    commands := ["php"], version_args := ["--version"],
    version_regex := rxOk (rcat [rstr "PHP ", semverGrp]) }

/-- Rule `dotnet` — pattern `(\d+\.\d+\.?\d*)`. -/
def dotnetRule : ToolRule :=
  { id := "dotnet", name := ".NET", category := "runtime",
    commands := ["dotnet"], version_args := ["--version"],
    version_regex := rxOk genericReg }

/-- Rule `deno` — pattern `deno (\d+\.\d+\.\d+)`. -/
def denoRule : ToolRule :=
  { id := "deno", name := "Deno", category := "runtime",
    commands := ["deno"], version_args := ["--version"],
    version_regex := rxOk (rcat [rstr "deno ", semverGrp]) }

/-- Rule `bun` — pattern `(\d+\.\d+\.\d+)`. -/
def bunRule : ToolRule :=
  { id := "bun", name := "Bun", category := "runtime",
    commands := ["bun"], version_args := ["--version"],
    version_regex := rxOk semverGrp }

/-- Rule `npm` — pattern `(\d+\.\d+\.\d+)`. -/
def npmRule : ToolRule :=
  { id := "npm", name := "npm", category := "package_manager",
    commands := ["npm"], version_args := ["--version"],
    version_regex := rxOk semverGrp }

/-- Rule `pnpm` — pattern `(\d+\.\d+\.\d+)`. -/
def pnpmRule : ToolRule :=
  { id := "pnpm", name := "pnpm", category := "package_manager",
    commands := ["pnpm"], version_args := ["--version"],
    version_regex := rxOk semverGrp }

/-- Rule `yarn` — pattern `(\d+\.\d+\.\d+)`. -/
def yarnRule : ToolRule :=
  { id := "yarn", name := "Yarn", category := "package_manager",
    commands := ["yarn"], version_args := ["--version"],
    version_regex := rxOk semverGrp }

/-- Rule `pip` — pattern `pip (\d+\.\d+\.?\d*)`. -/
def pipRule : ToolRule :=
  { id := "pip", name := "pip", category := "package_manager",
    commands := ["pip", "pip3"], version_args := ["--version"],
    version_regex := rxOk (rcat [rstr "pip ", genericReg]) }

/-- Rule `cargo` — pattern `cargo (\d+\.\d+\.\d+)`. -/
def cargoRule : ToolRule :=
  { id := "cargo", name := "Cargo", category := "package_manager",
    commands := ["cargo"], version_args := ["--version"],
    version_regex := rxOk (rcat [rstr "cargo ", semverGrp]) }

/-- Rule `composer` — pattern `Composer version (\d+\.\d+\.\d+)`. -/
def composerRule : ToolRule :=
  { id := "composer", name := "Composer", category := "package_manager",
    commands := ["composer"], version_args := ["--version"],
    version_regex := rxOk (rcat [rstr "Composer version ", semverGrp]) }

/-- Rule `maven` — pattern `Apache Maven (\d+\.\d+\.\d+)`. -/
def mavenRule : ToolRule :=
  { id := "maven", name := "Maven", category := "package_manager",
    commands := ["mvn"], version_args := ["--version"],
    version_regex := rxOk (rcat [rstr "Apache Maven ", semverGrp]) }

/-- Rule `gradle` — pattern `Gradle (\d+\.\d+\.?\d*)`. -/
def gradleRule : ToolRule :=
  { id := "gradle", name := "Gradle", category := "package_manager",
    commands := ["gradle"], version_args := ["--version"],
    version_regex := rxOk (rcat [rstr "Gradle ", genericReg]) }

/-- Rule `uv` — pattern `uv (\d+\.\d+\.\d+)`. -/
def uvRule : ToolRule :=
  { id := "uv", name := "uv", category := "package_manager",
    commands := ["uv"], version_args := ["--version"],
    version_regex := rxOk (rcat [rstr "uv ", semverGrp]) }

/-- Rule `pipx` — pattern `(\d+\.\d+\.\d+)`. -/
def pipxRule : ToolRule :=
  { id := "pipx", name := "pipx", category := "package_manager",
    commands := ["pipx"], version_args := ["--version"],
    version_regex := rxOk semverGrp }

/-- Rule `poetry` — pattern `Poetry \(version (\d+\.\d+\.\d+)\)`. -/
def poetryRule : ToolRule :=
  { id := "poetry", name := "Poetry", category := "package_manager",
    commands := ["poetry"], version_args := ["--version"],
    version_regex := rxOk (rcat [rstr "Poetry (version ", semverGrp, Reg.lit ')']) }

/-- Rule `nvm` — pattern `(\d+\.\d+\.\d+)`. -/
def nvmRule : ToolRule :=
  { id := "nvm", name := "nvm", category := "version_manager",
    commands := ["nvm"], version_args := ["--version"],
    version_regex := rxOk semverGrp }

/-- Rule `pyenv` — pattern `pyenv (\d+\.\d+\.\d+)`. -/
def pyenvRule : ToolRule :=
  { id := "pyenv", name := "pyenv", category := "version_manager",
    commands := ["pyenv"], version_args := ["--version"],
    version_regex := rxOk (rcat [rstr "pyenv ", semverGrp]) }

/-- Rule `rustup` — pattern `rustup (\d+\.\d+\.\d+)`. -/
def rustupRule : ToolRule :=
  { id := "rustup", name := "rustup", category := "version_manager",
    commands := ["rustup"], version_args := ["--version"],
    version_regex := rxOk (rcat [rstr "rustup ", semverGrp]) }

/-- Rule `sdkman` — pattern `(\d+\.\d+\.\d+)`. -/
def sdkmanRule : ToolRule :=
  { id := "sdkman", name := "SDKMAN", category := "version_manager",
    commands := ["sdk"], version_args := ["version"],
    version_regex := rxOk semverGrp }

/-- Rule `cmake` — pattern `cmake version (\d+\.\d+\.\d+)`. -/
def cmakeRule : ToolRule :=
  { id := "cmake", name := "CMake", category := "build_tool",
    commands := ["cmake"], version_args := ["--version"],
    version_regex := rxOk (rcat [rstr "cmake version ", semverGrp]) }

/-- Rule `make` — pattern `(\d+\.\d+)`. -/
def makeRule : ToolRule :=
  { id := "make", name := "Make", category := "build_tool",
    commands := ["make"], version_args := ["--version"],
    version_regex := rxOk twoGrp }

/-- Rule `ninja` — pattern `(\d+\.\d+\.\d+)`. -/
def ninjaRule : ToolRule :=
  { id := "ninja", name := "Ninja", category := "build_tool",
    commands := ["ninja"], version_args := ["--version"],
    version_regex := rxOk semverGrp }

/-- Rule `git` — pattern `git version (\d+\.\d+\.\d+)`. -/
def gitRule : ToolRule :=
  { id := "git", name := "Git", category := "version_control",
    commands := ["git"], version_args := ["--version"],
    version_regex := rxOk (rcat [rstr "git version ", semverGrp]) }

/-- Rule `svn` — pattern `svn, version (\d+\.\d+\.\d+)`. -/
def svnRule : ToolRule :=
  { id := "svn", name := "SVN", category := "version_control",
    commands := ["svn"], version_args := ["--version"],
    version_regex := rxOk (rcat [rstr "svn, version ", semverGrp]) }

/-- Rule `docker` — pattern `Docker version (\d+\.\d+\.\d+)`. -/
def dockerRule : ToolRule :=
  { id := "docker", name := "Docker", category := "container",
    commands := ["docker"], version_args := ["--version"],
    version_regex := rxOk (rcat [rstr "Docker version ", semverGrp]) }

/-- Rule `kubectl` — pattern `v(\d+\.\d+\.\d+)`. -/
def kubectlRule : ToolRule :=
  { id := "kubectl", name := "kubectl", category := "container",
    commands := ["kubectl"], version_args := ["version", "--client", "--short"],
    version_regex := rxOk (rcat [Reg.lit 'v', semverGrp]) }

/-- Rule `podman` — pattern `podman version (\d+\.\d+\.\d+)`. -/
def podmanRule : ToolRule :=
  { id := "podman", name := "Podman", category := "container",
    commands := ["podman"], version_args := ["--version"],
    version_regex := rxOk (rcat [rstr "podman version ", semverGrp]) }

/-- Rule `codex` — pattern `(\d+\.\d+\.\d+)`. -/
def codexRule : ToolRule :=
  { id := "codex", name := "OpenAI Codex CLI", category := "ai_cli",
    commands := ["codex"], version_args := ["--version"],
    version_regex := rxOk semverGrp }

/-- Rule `claude` — pattern `(\d+\.\d+\.\d+)`. -/
def claudeRule : ToolRule :=
  { id := "claude", name := "Claude Code", category := "ai_cli",
    commands := ["claude"], version_args := ["--version"],
    version_regex := rxOk semverGrp }

/-- Rule `gemini` — pattern `(\d+\.\d+\.\d+)`. -/
def geminiRule : ToolRule :=
  { id := "gemini", name := "Gemini CLI", category := "ai_cli",
    commands := ["gemini"], version_args := ["--version"],
    version_regex := rxOk semverGrp }

/-- Rule `opencode` — pattern `(\d+\.\d+\.\d+)`. -/
def opencodeRule : ToolRule :=
  { id := "opencode", name := "OpenCode", category := "ai_cli",
    commands := ["opencode"], version_args := ["--version"],
    version_regex := rxOk semverGrp }

/-- Rule `iflow` — pattern `(\d+\.\d+\.\d+)`. -/
def iflowRule : ToolRule :=
  { id := "iflow", name := "iFlow CLI", category := "ai_cli",
    commands := ["iflow"], version_args := ["--version"],
    version_regex := rxOk semverGrp }

/-- Get all tool detection rules (fn `get_tool_rules`), in catalog order. -/
def get_tool_rules : List ToolRule :=
  [nodeRule, pythonRule, javaRule, goRule, rustRule, rubyRule, phpRule,
   dotnetRule, denoRule, bunRule,
   npmRule, pnpmRule, yarnRule, pipRule, cargoRule, composerRule, mavenRule,
   gradleRule, uvRule, pipxRule, poetryRule,
   nvmRule, pyenvRule, rustupRule, sdkmanRule,
   cmakeRule, makeRule, ninjaRule,
   gitRule, svnRule,
   dockerRule, kubectlRule, podmanRule,
   codexRule, claudeRule, geminiRule, opencodeRule, iflowRule]

/-- Scan for all development tools (fn `scan_all_tools`): run `detect_tool`
on every rule and keep the non-empty results.  `rayon`'s indexed
`par_iter().filter_map().collect()` preserves catalog order, which the
sequential `filterMap` reproduces. -/
def scan_all_tools (env : Env) : List ToolInfo :=
  get_tool_rules.filterMap (detect_tool env)

/-- The scan with an explicit completion order: the same rules, traversed
in the order `rules` — the model of one parallel run of the coordinator in
which results are collected as the workers finish. -/
def scanToolsInOrder (env : Env) (rules : List ToolRule) : List ToolInfo :=
  rules.filterMap (detect_tool env)

/-- Windows state with nothing set and nothing on disk. -/
def winNone : WinFs :=
  { pathExists := fun _ => false, readDir := fun _ => none,
    userprofile := none, programfiles := none, localappdata := none,
    nvm_home := none }

/-- A machine with no tools at all. -/
def env0 : Env :=
  { resolve := fun _ => none, exec := fun _ _ => none, win := winNone }

/-- A machine where only `bun` is installed, printing `1.2.19`. -/
def envA : Env :=
  { resolve := fun c => if c == "bun" then some "/usr/local/bin/bun" else none,
    exec := fun c _ => if c == "bun" then some ("1.2.19\n", "") else none,
    win := winNone }

/-- The Tool Info `detect_tool` produces for `bun` on `envA`. -/
def infoA : ToolInfo :=
  ToolInfo.mk "bun" "Bun" "runtime"
    [ToolVersion.mk "1.2.19" "/usr/local/bin/bun" true] "installed"

/-- A Windows machine where no `python` candidate is on the search path
but the `Python39` install directory exists and hosts a working
interpreter: a shadow-only detection. -/
def c2Env : Env :=
  { resolve := fun _ => none,
    exec := fun c _ =>
      if c == "C:\\L\\Python\\Python39\\python" then some ("Python 3.9.1", "") else none,
    win :=
      { pathExists := fun p =>
          p == "C:\\L\\Python\\Python39" || p == "C:\\L\\Python\\Python39\\python",
        readDir := fun _ => none,
        userprofile := some "C:\\U", programfiles := none,
        localappdata := some "C:\\L", nvm_home := none } }

/-- The shadow-only Tool Info `detect_tool` produces for `python` on
`c2Env`. -/
def c2Info : ToolInfo :=
  ToolInfo.mk "python" "Python" "runtime"
    [ToolVersion.mk "3.9.1" "C:\\L\\Python\\Python39" false] "installed"

/-- A machine where `bun` resolves and its probe child exits with a
non-zero status (`ok = false`) while still printing a version: the
environment's probe result is exactly what `execute_command` returns for
that child. -/
def env7 : Env :=
  { resolve := fun c => if c == "bun" then some "/usr/bin/bun" else none,
    exec := fun c _ =>
      if c == "bun" then execResult (execute_command (ChildBehavior.exits false "1.2.3\n" ""))
      else none,
    win := winNone }

/-- A machine where `bun` resolves but its probe returns nothing. -/
def envNoOut : Env :=
  { resolve := fun c => if c == "bun" then some "/usr/bin/bun" else none,
    exec := fun _ _ => none,
    win := winNone }

/-- A machine where `bun` resolves and prints text its pattern cannot
parse. -/
def envGib : Env :=
  { resolve := fun c => if c == "bun" then some "/usr/bin/bun" else none,
    exec := fun c _ => if c == "bun" then some ("no semantic version here", "") else none,
    win := winNone }

/-- A rule whose extraction pattern failed to compile. -/
def badRule : ToolRule :=
  { id := "mystery", name := "Mystery", category := "misc",
    commands := ["mystery"], version_args := ["--version"],
    version_regex := some RegexSrc.bad }

/-- A machine where `mystery` resolves and prints unstructured text. -/
def env8 : Env :=
  { resolve := fun c => if c == "mystery" then some "/opt/mystery" else none,
    exec := fun c _ => if c == "mystery" then some ("gibberish output", "") else none,
    win := winNone }

/-- A machine where `python` and `python3` both resolve to the same
interpreter whose probe under the name `python` yields nothing while the
same probe under `python3` would yield output, and `py` resolves to a
second interpreter that probes fine. -/
def env10 : Env :=
  { resolve := fun c =>
      if c == "python" || c == "python3" then some "/venv/bin/python"
      else if c == "py" then some "/usr/bin/py" else none,
    exec := fun c _ =>
      if c == "python3" then some ("Python 3.11.2", "")
      else if c == "py" then some ("Python 3.12.0", "") else none,
    win := winNone }

/-- The Tool Info `detect_tool` produces for `python` on `env10`: only the
second interpreter is recorded. -/
def info10 : ToolInfo :=
  ToolInfo.mk "python" "Python" "runtime"
    [ToolVersion.mk "3.12.0" "/usr/bin/py" true] "installed"

/-- Unfolding: a candidate that does not resolve is skipped. -/
lemma candLoop_cons_unresolved (env : Env) (rule : ToolRule) (c : String)
    (cs : List String) (vs : List ToolVersion) (found : List String)
    (h : env.resolve c = none) :
    candLoop env rule (c :: cs) vs found = candLoop env rule cs vs found := by
  simp [candLoop, h]

/-- Unfolding: a candidate resolving to a path already in the seen-path
set is skipped. -/
lemma candLoop_cons_seen (env : Env) (rule : ToolRule) (c path : String)
    (cs : List String) (vs : List ToolVersion) (found : List String)
    (h : env.resolve c = some path) (hm : path ∈ found) :
    candLoop env rule (c :: cs) vs found = candLoop env rule cs vs found := by
  simp [candLoop, h, hm]

/-- Unfolding: a fresh path is inserted into the seen-path set even when
the probe returns nothing, and no version is pushed. -/
lemma candLoop_cons_noout (env : Env) (rule : ToolRule) (c path : String)
    (cs : List String) (vs : List ToolVersion) (found : List String)
    (h : env.resolve c = some path) (hm : path ∉ found)
    (hx : env.exec c rule.version_args = none) :
    candLoop env rule (c :: cs) vs found = candLoop env rule cs vs (path :: found) := by
  simp [candLoop, h, hm, hx]

/-- Unfolding: a fresh path whose probe returns output pushes one
version; `is_active` is whether the version list was empty. -/
lemma candLoop_cons_push (env : Env) (rule : ToolRule) (c path out err : String)
    (cs : List String) (vs : List ToolVersion) (found : List String)
    (h : env.resolve c = some path) (hm : path ∉ found)
    (hx : env.exec c rule.version_args = some (out, err)) :
    candLoop env rule (c :: cs) vs found =
      candLoop env rule cs
        (vs ++ [{ version := (extract_version (chooseOutput out err) rule.version_regex).getD "unknown",
                  path := path, is_active := vs.isEmpty }])
        (path :: found) := by
  simp [candLoop, h, hm, hx]

/-- Unfolding: a shadow path that fails the exists/seen guard is skipped. -/
lemma shadowLoop_cons_skip (env : Env) (rule : ToolRule) (found : List String)
    (e : String) (es : List String) (vs : List ToolVersion)
    (h : ¬(env.win.pathExists e ∧ e ∉ found)) :
    shadowLoop env rule found (e :: es) vs = shadowLoop env rule found es vs := by
  simp only [shadowLoop, if_neg h]

/-- Unfolding: a shadow path whose joined command does not exist is
skipped. -/
lemma shadowLoop_cons_nocmd (env : Env) (rule : ToolRule) (found : List String)
    (e : String) (es : List String) (vs : List ToolVersion)
    (h : env.win.pathExists e ∧ e ∉ found)
    (h2 : env.win.pathExists (e ++ "\\" ++ rule.commands.headD "") = false) :
    shadowLoop env rule found (e :: es) vs = shadowLoop env rule found es vs := by
  simp only [shadowLoop, if_pos h, h2, Bool.false_eq_true, if_false]

/-- Unfolding: a shadow probe that returns nothing pushes no version. -/
lemma shadowLoop_cons_noout (env : Env) (rule : ToolRule) (found : List String)
    (e : String) (es : List String) (vs : List ToolVersion)
    (h : env.win.pathExists e ∧ e ∉ found)
    (h2 : env.win.pathExists (e ++ "\\" ++ rule.commands.headD "") = true)
    (hx : env.exec (e ++ "\\" ++ rule.commands.headD "") rule.version_args = none) :
    shadowLoop env rule found (e :: es) vs = shadowLoop env rule found es vs := by
  simp only [shadowLoop, if_pos h, h2, if_true, hx]

/-- Unfolding: a shadow probe with output pushes one version with the
extra path and `is_active = false`. -/
lemma shadowLoop_cons_push (env : Env) (rule : ToolRule) (found : List String)
    (e out err : String) (es : List String) (vs : List ToolVersion)
    (h : env.win.pathExists e ∧ e ∉ found)
    (h2 : env.win.pathExists (e ++ "\\" ++ rule.commands.headD "") = true)
    (hx : env.exec (e ++ "\\" ++ rule.commands.headD "") rule.version_args = some (out, err)) :
    shadowLoop env rule found (e :: es) vs =
      shadowLoop env rule found es
        (vs ++ [{ version := (extract_version (chooseOutput out err) rule.version_regex).getD "unknown",
                  path := e, is_active := false }]) := by
  simp only [shadowLoop, if_pos h, h2, if_true, hx]

/-- The seen-path set only grows across the candidate loop. -/
lemma candLoop_found_super (env : Env) (rule : ToolRule) :
    ∀ (cs : List String) (vs : List ToolVersion) (found : List String) (q : String),
      q ∈ found → q ∈ (candLoop env rule cs vs found).2 := by
  intro cs
  induction cs with
  | nil => intro vs found q hq; simpa [candLoop] using hq
  | cons c cs ih =>
    intro vs found q hq
    cases hres : env.resolve c with
    | none =>
      rw [candLoop_cons_unresolved env rule c cs vs found hres]
      exact ih vs found q hq
    | some path =>
      by_cases hm : path ∈ found
      · rw [candLoop_cons_seen env rule c path cs vs found hres hm]
        exact ih vs found q hq
      · cases hx : env.exec c rule.version_args with
        | none =>
          rw [candLoop_cons_noout env rule c path cs vs found hres hm hx]
          exact ih vs (path :: found) q (List.mem_cons_of_mem _ hq)
        | some pr =>
          obtain ⟨out, err⟩ := pr
          rw [candLoop_cons_push env rule c path out err cs vs found hres hm hx]
          exact ih _ (path :: found) q (List.mem_cons_of_mem _ hq)

/-- Every member of the final seen-path set was already seen or is the
resolution of one of the traversed candidates. -/
lemma candLoop_found_src (env : Env) (rule : ToolRule) :
    ∀ (cs : List String) (vs : List ToolVersion) (found : List String) (q : String),
      q ∈ (candLoop env rule cs vs found).2 →
      q ∈ found ∨ ∃ c ∈ cs, env.resolve c = some q := by
  intro cs
  induction cs with
  | nil => intro vs found q hq; left; simpa [candLoop] using hq
  | cons c cs ih =>
    intro vs found q hq
    cases hres : env.resolve c with
    | none =>
      rw [candLoop_cons_unresolved env rule c cs vs found hres] at hq
      rcases ih vs found q hq with h | ⟨c', hc', h'⟩
      · exact Or.inl h
      · exact Or.inr ⟨c', List.mem_cons_of_mem _ hc', h'⟩
    | some path =>
      by_cases hm : path ∈ found
      · rw [candLoop_cons_seen env rule c path cs vs found hres hm] at hq
        rcases ih vs found q hq with h | ⟨c', hc', h'⟩
        · exact Or.inl h
        · exact Or.inr ⟨c', List.mem_cons_of_mem _ hc', h'⟩
      · have step : ∀ vs' : List ToolVersion,
            q ∈ (candLoop env rule cs vs' (path :: found)).2 →
            q ∈ found ∨ ∃ c' ∈ c :: cs, env.resolve c' = some q := by
          intro vs' hq'
          rcases ih vs' (path :: found) q hq' with h | ⟨c', hc', h'⟩
          · rcases List.mem_cons.1 h with h | h
            · exact Or.inr ⟨c, List.mem_cons_self c cs, by rw [hres, h]⟩
            · exact Or.inl h
          · exact Or.inr ⟨c', List.mem_cons_of_mem _ hc', h'⟩
        cases hx : env.exec c rule.version_args with
        | none =>
          rw [candLoop_cons_noout env rule c path cs vs found hres hm hx] at hq
          exact step vs hq
        | some pr =>
          obtain ⟨out, err⟩ := pr
          rw [candLoop_cons_push env rule c path out err cs vs found hres hm hx] at hq
          exact step _ hq

/-- Every version path recorded by the candidate loop lies in the final
seen-path set. -/
lemma candLoop_paths_found (env : Env) (rule : ToolRule) :
    ∀ (cs : List String) (vs : List ToolVersion) (found : List String),
      (∀ v ∈ vs, v.path ∈ found) →
      ∀ v ∈ (candLoop env rule cs vs found).1, v.path ∈ (candLoop env rule cs vs found).2 := by
  intro cs
  induction cs with
  | nil => intro vs found h v hv; simp only [candLoop] at hv ⊢; exact h v hv
  | cons c cs ih =>
    intro vs found h
    cases hres : env.resolve c with
    | none =>
      rw [candLoop_cons_unresolved env rule c cs vs found hres]
      exact ih vs found h
    | some path =>
      by_cases hm : path ∈ found
      · rw [candLoop_cons_seen env rule c path cs vs found hres hm]
        exact ih vs found h
      · cases hx : env.exec c rule.version_args with
        | none =>
          rw [candLoop_cons_noout env rule c path cs vs found hres hm hx]
          exact ih vs (path :: found)
            (fun v hv => List.mem_cons_of_mem _ (h v hv))
        | some pr =>
          obtain ⟨out, err⟩ := pr
          rw [candLoop_cons_push env rule c path out err cs vs found hres hm hx]
          refine ih _ (path :: found) ?_
          intro v hv
          rcases List.mem_append.1 hv with hv | hv
          · exact List.mem_cons_of_mem _ (h v hv)
          · rcases List.mem_singleton.1 hv with rfl
            exact List.mem_cons_self _ _

/-- The candidate loop keeps the recorded paths pairwise distinct. -/
lemma candLoop_nodup (env : Env) (rule : ToolRule) :
    ∀ (cs : List String) (vs : List ToolVersion) (found : List String),
      (∀ v ∈ vs, v.path ∈ found) →
      (vs.map (fun v => v.path)).Nodup →
      ((candLoop env rule cs vs found).1.map (fun v => v.path)).Nodup := by
  intro cs
  induction cs with
  | nil => intro vs found _ hnd; simpa [candLoop] using hnd
  | cons c cs ih =>
    intro vs found h hnd
    cases hres : env.resolve c with
    | none =>
      rw [candLoop_cons_unresolved env rule c cs vs found hres]
      exact ih vs found h hnd
    | some path =>
      by_cases hm : path ∈ found
      · rw [candLoop_cons_seen env rule c path cs vs found hres hm]
        exact ih vs found h hnd
      · cases hx : env.exec c rule.version_args with
        | none =>
          rw [candLoop_cons_noout env rule c path cs vs found hres hm hx]
          exact ih vs (path :: found)
            (fun v hv => List.mem_cons_of_mem _ (h v hv)) hnd
        | some pr =>
          obtain ⟨out, err⟩ := pr
          rw [candLoop_cons_push env rule c path out err cs vs found hres hm hx]
          refine ih _ (path :: found) ?_ ?_
          · intro v hv
            rcases List.mem_append.1 hv with hv | hv
            · exact List.mem_cons_of_mem _ (h v hv)
            · rcases List.mem_singleton.1 hv with rfl
              exact List.mem_cons_self _ _
          · rw [List.map_append]
            refine ((List.perm_append_singleton _ _).nodup_iff).2 (List.nodup_cons.2 ⟨?_, hnd⟩)
            intro hmem
            rcases List.mem_map.1 hmem with ⟨v, hv, hp⟩
            have hp2 : v.path = path := hp
            exact hm (hp2 ▸ h v hv)

/-- A path already in the seen-path set and not among the recorded
versions is never recorded by the rest of the candidate loop. -/
lemma candLoop_avoid (env : Env) (rule : ToolRule) :
    ∀ (cs : List String) (vs : List ToolVersion) (found : List String) (q : String),
      q ∈ found → (∀ v ∈ vs, v.path ≠ q) →
      ∀ v ∈ (candLoop env rule cs vs found).1, v.path ≠ q := by
  intro cs
  induction cs with
  | nil => intro vs found q _ h v hv; simp only [candLoop] at hv; exact h v hv
  | cons c cs ih =>
    intro vs found q hq h
    cases hres : env.resolve c with
    | none =>
      rw [candLoop_cons_unresolved env rule c cs vs found hres]
      exact ih vs found q hq h
    | some path =>
      by_cases hm : path ∈ found
      · rw [candLoop_cons_seen env rule c path cs vs found hres hm]
        exact ih vs found q hq h
      · cases hx : env.exec c rule.version_args with
        | none =>
          rw [candLoop_cons_noout env rule c path cs vs found hres hm hx]
          exact ih vs (path :: found) q (List.mem_cons_of_mem _ hq) h
        | some pr =>
          obtain ⟨out, err⟩ := pr
          rw [candLoop_cons_push env rule c path out err cs vs found hres hm hx]
          refine ih _ (path :: found) q (List.mem_cons_of_mem _ hq) ?_
          intro v hv
          rcases List.mem_append.1 hv with hv | hv
          · exact h v hv
          · rcases List.mem_singleton.1 hv with rfl
            intro hpq
            have hpq2 : path = q := hpq
            exact hm (by rw [hpq2]; exact hq)

/-- Shape of the `is_active` flags along the candidate loop: the number of
active entries is one when the list is non-empty and zero otherwise, and
no entry after the first is active. -/
def ActiveShape (l : List ToolVersion) : Prop :=
  l.countP (fun v => v.is_active) = (if l.isEmpty then 0 else 1) ∧
  l.tail.all (fun v => !v.is_active) = true

/-- Appending an inactive version preserves the active shape of a
non-empty list's count and the tail flags. -/
lemma activeShape_append_inactive (l : List ToolVersion) (ver path : String)
    (h : ActiveShape l) (hne : l ≠ []) :
    ActiveShape (l ++ [{ version := ver, path := path, is_active := false }]) := by
  obtain ⟨hc, ht⟩ := h
  constructor
  · have hc1 : List.countP (fun v => v.is_active) l = 1 := by
      rw [hc, if_neg (by simp [List.isEmpty_eq_true, hne])]
    rw [List.countP_append, hc1]
    simp [List.countP_cons, List.isEmpty_eq_true]
  · cases l with
    | nil => exact absurd rfl hne
    | cons a t =>
      simp only [List.cons_append, List.tail_cons, List.all_append] at ht ⊢
      simp [ht]

/-- The candidate loop preserves the active shape. -/
lemma candLoop_active (env : Env) (rule : ToolRule) :
    ∀ (cs : List String) (vs : List ToolVersion) (found : List String),
      ActiveShape vs → ActiveShape (candLoop env rule cs vs found).1 := by
  intro cs
  induction cs with
  | nil => intro vs found h; simpa [candLoop] using h
  | cons c cs ih =>
    intro vs found h
    cases hres : env.resolve c with
    | none =>
      rw [candLoop_cons_unresolved env rule c cs vs found hres]
      exact ih vs found h
    | some path =>
      by_cases hm : path ∈ found
      · rw [candLoop_cons_seen env rule c path cs vs found hres hm]
        exact ih vs found h
      · cases hx : env.exec c rule.version_args with
        | none =>
          rw [candLoop_cons_noout env rule c path cs vs found hres hm hx]
          exact ih vs (path :: found) h
        | some pr =>
          obtain ⟨out, err⟩ := pr
          rw [candLoop_cons_push env rule c path out err cs vs found hres hm hx]
          refine ih _ (path :: found) ?_
          cases hvs : vs with
          | nil => constructor <;> simp [List.countP, List.countP.go]
          | cons a t =>
            have hne : vs ≠ [] := by rw [hvs]; exact List.cons_ne_nil a t
            have : vs.isEmpty = false := by rw [hvs]; rfl
            rw [← hvs, this]
            exact activeShape_append_inactive vs _ _ h hne

/-- The shadow loop pushes only inactive versions, so it never changes the
number of active entries. -/
lemma shadowLoop_countP (env : Env) (rule : ToolRule) (found : List String) :
    ∀ (es : List String) (vs : List ToolVersion),
      (shadowLoop env rule found es vs).countP (fun v => v.is_active) =
        vs.countP (fun v => v.is_active) := by
  intro es
  induction es with
  | nil => intro vs; rfl
  | cons e es ih =>
    intro vs
    by_cases h : env.win.pathExists e ∧ e ∉ found
    · cases h2 : env.win.pathExists (e ++ "\\" ++ rule.commands.headD "") with
      | false => rw [shadowLoop_cons_nocmd env rule found e es vs h h2]; exact ih vs
      | true =>
        cases hx : env.exec (e ++ "\\" ++ rule.commands.headD "") rule.version_args with
        | none => rw [shadowLoop_cons_noout env rule found e es vs h h2 hx]; exact ih vs
        | some pr =>
          obtain ⟨out, err⟩ := pr
          rw [shadowLoop_cons_push env rule found e out err es vs h h2 hx, ih]
          rw [List.countP_append]
          simp [List.countP, List.countP.go]
    · rw [shadowLoop_cons_skip env rule found e es vs h]; exact ih vs

/-- The shadow loop preserves "no entry after the first is active". -/
lemma shadowLoop_tail_inactive (env : Env) (rule : ToolRule) (found : List String) :
    ∀ (es : List String) (vs : List ToolVersion),
      vs.tail.all (fun v => !v.is_active) = true →
      (shadowLoop env rule found es vs).tail.all (fun v => !v.is_active) = true := by
  intro es
  induction es with
  | nil => intro vs h; exact h
  | cons e es ih =>
    intro vs h
    by_cases hg : env.win.pathExists e ∧ e ∉ found
    · cases h2 : env.win.pathExists (e ++ "\\" ++ rule.commands.headD "") with
      | false => rw [shadowLoop_cons_nocmd env rule found e es vs hg h2]; exact ih vs h
      | true =>
        cases hx : env.exec (e ++ "\\" ++ rule.commands.headD "") rule.version_args with
        | none => rw [shadowLoop_cons_noout env rule found e es vs hg h2 hx]; exact ih vs h
        | some pr =>
          obtain ⟨out, err⟩ := pr
          rw [shadowLoop_cons_push env rule found e out err es vs hg h2 hx]
          refine ih _ ?_
          cases vs with
          | nil => rfl
          | cons a t =>
            simp only [List.cons_append, List.tail_cons, List.all_append] at h ⊢
            simp [h]
    · rw [shadowLoop_cons_skip env rule found e es vs hg]; exact ih vs h

/-- The shadow loop keeps the recorded paths pairwise distinct, as long as
the extra-path list itself has no duplicates: a pushed extra path is not
in the seen-path set (loop guard), not among earlier candidate paths
(which all lie in the seen-path set), and not among earlier shadow pushes
(no-duplicate hypothesis). -/
lemma shadowLoop_nodup (env : Env) (rule : ToolRule) (found : List String) :
    ∀ (es : List String) (vs : List ToolVersion),
      es.Nodup →
      (vs.map (fun v => v.path)).Nodup →
      (∀ e ∈ es, e ∉ found → e ∉ vs.map (fun v => v.path)) →
      ((shadowLoop env rule found es vs).map (fun v => v.path)).Nodup := by
  intro es
  induction es with
  | nil => intro vs _ hnd _; exact hnd
  | cons e es ih =>
    intro vs hes hnd hfr
    have hes2 : es.Nodup := (List.nodup_cons.1 hes).2
    have hene : e ∉ es := (List.nodup_cons.1 hes).1
    by_cases hg : env.win.pathExists e ∧ e ∉ found
    · cases h2 : env.win.pathExists (e ++ "\\" ++ rule.commands.headD "") with
      | false =>
        rw [shadowLoop_cons_nocmd env rule found e es vs hg h2]
        exact ih vs hes2 hnd (fun e' he' => hfr e' (List.mem_cons_of_mem _ he'))
      | true =>
        cases hx : env.exec (e ++ "\\" ++ rule.commands.headD "") rule.version_args with
        | none =>
          rw [shadowLoop_cons_noout env rule found e es vs hg h2 hx]
          exact ih vs hes2 hnd (fun e' he' => hfr e' (List.mem_cons_of_mem _ he'))
        | some pr =>
          obtain ⟨out, err⟩ := pr
          rw [shadowLoop_cons_push env rule found e out err es vs hg h2 hx]
          refine ih _ hes2 ?_ ?_
          · rw [List.map_append]
            refine ((List.perm_append_singleton _ _).nodup_iff).2 (List.nodup_cons.2 ⟨?_, hnd⟩)
            exact hfr e (List.mem_cons_self e es) hg.2
          · intro e' he' hnotf hmem
            rw [List.map_append, List.mem_append] at hmem
            rcases hmem with hmem | hmem
            · exact hfr e' (List.mem_cons_of_mem _ he') hnotf hmem
            · have : e' = e := by simpa using hmem
              exact hene (this ▸ he')
    · rw [shadowLoop_cons_skip env rule found e es vs hg]
      exact ih vs hes2 hnd (fun e' he' => hfr e' (List.mem_cons_of_mem _ he'))

/-- A path in the seen-path set is never recorded by the shadow loop. -/
lemma shadowLoop_avoid (env : Env) (rule : ToolRule) (found : List String) :
    ∀ (es : List String) (vs : List ToolVersion) (q : String),
      q ∈ found → (∀ v ∈ vs, v.path ≠ q) →
      ∀ v ∈ shadowLoop env rule found es vs, v.path ≠ q := by
  intro es
  induction es with
  | nil => intro vs q _ h v hv; exact h v hv
  | cons e es ih =>
    intro vs q hq h
    by_cases hg : env.win.pathExists e ∧ e ∉ found
    · cases h2 : env.win.pathExists (e ++ "\\" ++ rule.commands.headD "") with
      | false => rw [shadowLoop_cons_nocmd env rule found e es vs hg h2]; exact ih vs q hq h
      | true =>
        cases hx : env.exec (e ++ "\\" ++ rule.commands.headD "") rule.version_args with
        | none => rw [shadowLoop_cons_noout env rule found e es vs hg h2 hx]; exact ih vs q hq h
        | some pr =>
          obtain ⟨out, err⟩ := pr
          rw [shadowLoop_cons_push env rule found e out err es vs hg h2 hx]
          refine ih _ q hq ?_
          intro v hv
          rcases List.mem_append.1 hv with hv | hv
          · exact h v hv
          · rcases List.mem_singleton.1 hv with rfl
            intro hpq
            have hpq2 : e = q := hpq
            exact hg.2 (by rw [hpq2]; exact hq)
    · rw [shadowLoop_cons_skip env rule found e es vs hg]; exact ih vs q hq h

/-- `detect_tool` returns `None` exactly when the built version vector is
empty. -/
lemma detect_tool_none_iff (env : Env) (rule : ToolRule) :
    detect_tool env rule = none ↔ detectVersions env rule = [] := by
  unfold detect_tool
  cases h : detectVersions env rule with
  | nil => simp [h]
  | cons a t => simp [h]

/-- The shape of a `ToolInfo` returned by `detect_tool`. -/
lemma detect_tool_some_shape (env : Env) (rule : ToolRule) (info : ToolInfo)
    (h : detect_tool env rule = some info) :
    info.id = rule.id ∧
    info.versions = detectVersions env rule ∧
    detectVersions env rule ≠ [] ∧
    info.status =
      (if 1 < (detectVersions env rule).length then "multiple_versions" else "installed") := by
  unfold detect_tool at h
  cases hv : detectVersions env rule with
  | nil => rw [hv] at h; simp at h
  | cons a t =>
    rw [hv] at h
    have h2 : some (ToolInfo.mk rule.id rule.name rule.category (a :: t)
        (if 1 < (a :: t).length then "multiple_versions" else "installed")) =
        some info := by simpa using h
    obtain rfl := Option.some.inj h2
    exact ⟨rfl, rfl, List.cons_ne_nil a t, rfl⟩

/-- `str::trim` produces the empty string exactly when every character of
the input is whitespace. -/
lemma trimList_eq_nil_iff (l : List Char) :
    trimList l = [] ↔ l.all isWS = true := by
  unfold trimList
  rw [List.reverse_eq_nil_iff, List.dropWhile_eq_nil_iff]
  constructor
  · intro h
    rw [List.all_eq_true]
    intro x hx
    have hsplit : l.takeWhile isWS ++ l.dropWhile isWS = l :=
      List.takeWhile_append_dropWhile isWS l
    rw [← hsplit] at hx
    rcases List.mem_append.1 hx with h1 | h1
    · exact List.mem_takeWhile_imp h1
    · exact h x (List.mem_reverse.2 h1)
  · intro h x hx
    rw [List.all_eq_true] at h
    exact h x ((List.dropWhile_sublist isWS).subset (List.mem_reverse.1 hx))

/-- When standard output is all whitespace, `detect_tool` searches
standard error. -/
lemma chooseOutput_ws (out err : String) (h : out.data.all isWS = true) :
    chooseOutput out err = err := by
  unfold chooseOutput
  rw [if_pos (by rw [List.isEmpty_eq_true, trimList_eq_nil_iff]; exact h)]

/-- When standard output has any non-whitespace character, `detect_tool`
searches standard output. -/
lemma chooseOutput_not_ws (out err : String) (h : out.data.all isWS = false) :
    chooseOutput out err = out := by
  unfold chooseOutput
  rw [if_neg ?_]
  rw [List.isEmpty_eq_true, trimList_eq_nil_iff, h]
  exact Bool.false_ne_true

/-- The generic fallback pattern has no match on the empty input. -/
lemma mtch_generic_nil : mtch genericReg [] = [] := by decide

/-- The generic fallback pattern has no match anchored at a non-digit
character. -/
lemma mtch_generic_cons (x : Char) (xs : List Char) (hx : isNd x = false) :
    mtch genericReg (x :: xs) = [] := by
  simp [genericReg, mtch, charRun, List.takeWhile_cons, hx]

/-- The generic fallback pattern finds no match in text free of Unicode
decimal digits. -/
lemma findCapture_generic_none :
    ∀ l : List Char, (∀ c ∈ l, isNd c = false) →
      findCapture genericReg l = none := by
  intro l
  induction l with
  | nil => intro _; simp [findCapture, mtch_generic_nil]
  | cons x xs ih =>
    intro h
    have hx : isNd x = false := h x (List.mem_cons_self _ _)
    rw [findCapture, mtch_generic_cons x xs hx]
    exact ih (fun c hc => h c (List.mem_cons_of_mem _ hc))

/-- Unfolding of `detectVersions`. -/
lemma detectVersions_def (env : Env) (rule : ToolRule) :
    detectVersions env rule =
      shadowLoop env rule (detectCandidates env rule).2
        (get_windows_extra_paths env.win rule.id) (detectCandidates env rule).1 := rfl

/-- The candidate loop splits along list append. -/
lemma candLoop_append (env : Env) (rule : ToolRule) :
    ∀ (l1 l2 : List String) (vs : List ToolVersion) (found : List String),
      candLoop env rule (l1 ++ l2) vs found =
        candLoop env rule l2 (candLoop env rule l1 vs found).1
          (candLoop env rule l1 vs found).2 := by
  intro l1
  induction l1 with
  | nil => intro l2 vs found; rfl
  | cons c cs ih =>
    intro l2 vs found
    cases hres : env.resolve c with
    | none =>
      rw [List.cons_append, candLoop_cons_unresolved env rule c (cs ++ l2) vs found hres,
        candLoop_cons_unresolved env rule c cs vs found hres]
      exact ih l2 vs found
    | some path =>
      by_cases hm : path ∈ found
      · rw [List.cons_append, candLoop_cons_seen env rule c path (cs ++ l2) vs found hres hm,
          candLoop_cons_seen env rule c path cs vs found hres hm]
        exact ih l2 vs found
      · cases hx : env.exec c rule.version_args with
        | none =>
          rw [List.cons_append, candLoop_cons_noout env rule c path (cs ++ l2) vs found hres hm hx,
            candLoop_cons_noout env rule c path cs vs found hres hm hx]
          exact ih l2 vs (path :: found)
        | some pr =>
          obtain ⟨out, err⟩ := pr
          rw [List.cons_append, candLoop_cons_push env rule c path out err (cs ++ l2) vs found hres hm hx,
            candLoop_cons_push env rule c path out err cs vs found hres hm hx]
          exact ih l2 _ (path :: found)

/-- The rule catalog's identifiers are pairwise distinct. -/
lemma rules_ids_nodup : (get_tool_rules.map (fun r => r.id)).Nodup := by decide

/-- C1 counterexample: a probe whose child process never returns makes
`execute_command` itself never return — the outcome is divergence, not a
bounded failure, because the source passes no timeout to
`Command::output()`.  This refutes "execute_command never blocks past the
timeout" and "a probe whose child never returns is force-bounded". -/
theorem claim_C1_counterexample :
    execute_command ChildBehavior.hang = ExecOutcome.diverges := rfl

/-- C1 amended: `execute_command` has no timeout bound.  It diverges
exactly when the child never terminates (so a hung probe hangs the scan);
it returns a Failure (`None`) exactly on spawn failure, without panicking;
a child that exits — with any exit status — yields its captured output. -/
theorem claim_C1_amended :
    (∀ b : ChildBehavior,
      execute_command b = ExecOutcome.diverges ↔ b = ChildBehavior.hang) ∧
    (∀ b : ChildBehavior,
      execute_command b = ExecOutcome.failure ↔ b = ChildBehavior.spawnFail) ∧
    (∀ (ok : Bool) (out err : String),
      execute_command (ChildBehavior.exits ok out err) = ExecOutcome.success out err) := by
  refine ⟨?_, ?_, fun ok out err => rfl⟩
  · intro b; cases b <;> simp [execute_command]
  · intro b; cases b <;> simp [execute_command]

/-- C2 counterexample: on `c2Env` no `python` candidate resolves but the
`Python39` shadow directory yields a version, so `detect_tool` emits a
Tool Info whose versions list has zero entries with `is_active = true` —
refuting "exactly one entry of its versions list has `is_active = true`". -/
theorem claim_C2_counterexample :
    detect_tool c2Env pythonRule = some c2Info ∧
    c2Info.versions.countP (fun v => v.is_active) = 0 := by
  exact ⟨by decide, by decide⟩

/-- C2 amended: every Tool Info emitted by `detect_tool` has at most one
entry with `is_active = true`; no entry after the first is ever active
(so shadow versions, which are pushed after all candidate versions with
`is_active = false`, are never active); and the number of active entries
is exactly one when at least one version was recorded by the candidate
loop, and zero when all versions came from shadow paths. -/
theorem claim_C2_amended :
    ∀ (env : Env) (rule : ToolRule) (info : ToolInfo),
      detect_tool env rule = some info →
      info.versions.countP (fun v => v.is_active) ≤ 1 ∧
      info.versions.tail.all (fun v => !v.is_active) = true ∧
      info.versions.countP (fun v => v.is_active) =
        (if (detectCandidates env rule).1.isEmpty then 0 else 1) := by
  intro env rule info h
  obtain ⟨-, hv, -, -⟩ := detect_tool_some_shape env rule info h
  have hcand : ActiveShape (detectCandidates env rule).1 := by
    refine candLoop_active env rule rule.commands [] [] ⟨?_, rfl⟩
    simp
  have hcnt : info.versions.countP (fun v => v.is_active) =
      (if (detectCandidates env rule).1.isEmpty then 0 else 1) := by
    rw [hv, detectVersions_def, shadowLoop_countP]
    exact hcand.1
  refine ⟨?_, ?_, hcnt⟩
  · rw [hcnt]
    by_cases he : (detectCandidates env rule).1.isEmpty <;> simp [he]
  · rw [hv, detectVersions_def]
    exact shadowLoop_tail_inactive env rule _ _ _ hcand.2

/-- C2 witness: the amended statement applied to the shadow-only
detection of `c2Env`. -/
theorem claim_C2_witness :
    c2Info.versions.countP (fun v => v.is_active) ≤ 1 ∧
    c2Info.versions.tail.all (fun v => !v.is_active) = true ∧
    c2Info.versions.countP (fun v => v.is_active) =
      (if (detectCandidates c2Env pythonRule).1.isEmpty then 0 else 1) :=
  claim_C2_amended c2Env pythonRule c2Info (by decide)

/-- C3: `detect_tool` returns nothing exactly when no versions were
recorded; an emitted Tool Info always has a non-empty versions list and
status `"multiple_versions"` for two or more versions, `"installed"` for
exactly one; consequently `scan_all_tools` never emits a Tool Info with
zero versions and omits a rule entirely when its detection is empty. -/
theorem claim_C3 :
    (∀ (env : Env) (rule : ToolRule),
      detect_tool env rule = none ↔ detectVersions env rule = []) ∧
    (∀ (env : Env) (rule : ToolRule) (info : ToolInfo),
      detect_tool env rule = some info →
      info.versions ≠ [] ∧
      info.status = (if 1 < info.versions.length then "multiple_versions" else "installed")) ∧
    (∀ (env : Env) (info : ToolInfo), info ∈ scan_all_tools env → info.versions ≠ []) ∧
    (∀ (env : Env) (rule : ToolRule), rule ∈ get_tool_rules →
      detect_tool env rule = none →
      ∀ info ∈ scan_all_tools env, info.id ≠ rule.id) := by
  have hsome : ∀ (env : Env) (rule : ToolRule) (info : ToolInfo),
      detect_tool env rule = some info →
      info.versions ≠ [] ∧
      info.status = (if 1 < info.versions.length then "multiple_versions" else "installed") := by
    intro env rule info h
    obtain ⟨-, hv, hne, hs⟩ := detect_tool_some_shape env rule info h
    refine ⟨by rw [hv]; exact hne, by rw [hs, hv]⟩
  refine ⟨detect_tool_none_iff, hsome, ?_, ?_⟩
  · intro env info hmem
    unfold scan_all_tools at hmem
    rw [List.mem_filterMap] at hmem
    obtain ⟨rule, -, hdet⟩ := hmem
    exact (hsome env rule info hdet).1
  · intro env rule hrule hnone info hmem hid
    unfold scan_all_tools at hmem
    rw [List.mem_filterMap] at hmem
    obtain ⟨rule2, hr2, hdet⟩ := hmem
    have hids : info.id = rule2.id := (detect_tool_some_shape env rule2 info hdet).1
    have heq : rule2 = rule :=
      List.inj_on_of_nodup_map rules_ids_nodup hr2 hrule (by rw [← hids, hid])
    rw [heq, hnone] at hdet
    exact Option.noConfusion hdet

/-- C3 witness: the `bun`-only machine yields a one-version `installed`
Tool Info, and on the empty machine the detection of `bun` is empty. -/
theorem claim_C3_witness :
    (infoA.versions ≠ [] ∧
      infoA.status = (if 1 < infoA.versions.length then "multiple_versions" else "installed")) ∧
    (detect_tool env0 bunRule = none ↔ detectVersions env0 bunRule = []) :=
  ⟨claim_C3.2.1 envA bunRule infoA (by decide), claim_C3.1 env0 bunRule⟩

/-- C4: within one Tool Info the recorded paths are pairwise distinct
(given that the rule's extra-path list holds no duplicates, true of every
list `get_windows_extra_paths` builds from distinct directory entries),
so each recorded path carries exactly one Tool Version; in particular two
candidate names resolving to the same path contribute one entry. -/
theorem claim_C4 :
    ∀ (env : Env) (rule : ToolRule) (info : ToolInfo),
      (get_windows_extra_paths env.win rule.id).Nodup →
      detect_tool env rule = some info →
      (info.versions.map (fun v => v.path)).Nodup ∧
      info.versions.all
        (fun v => info.versions.countP (fun w => w.path == v.path) == 1) = true := by
  intro env rule info hext h
  obtain ⟨-, hv, -, -⟩ := detect_tool_some_shape env rule info h
  have hcand0 : ∀ v ∈ (detectCandidates env rule).1, v.path ∈ (detectCandidates env rule).2 := by
    apply candLoop_paths_found env rule rule.commands [] []
    intro v hv2
    exact absurd hv2 (List.not_mem_nil v)
  have hcnodup : ((detectCandidates env rule).1.map (fun v => v.path)).Nodup := by
    apply candLoop_nodup env rule rule.commands [] []
    · intro v hv2
      exact absurd hv2 (List.not_mem_nil v)
    · exact List.nodup_nil
  have hnd : (info.versions.map (fun v => v.path)).Nodup := by
    rw [hv, detectVersions_def]
    refine shadowLoop_nodup env rule _ _ _ hext hcnodup ?_
    intro e he henf hemem
    rcases List.mem_map.1 hemem with ⟨v, hv2, hp⟩
    have hp2 : v.path = e := hp
    exact henf (hp2 ▸ hcand0 v hv2)
  refine ⟨hnd, ?_⟩
  rw [List.all_eq_true]
  intro v hv2
  have hmem : v.path ∈ info.versions.map (fun w => w.path) :=
    List.mem_map_of_mem _ hv2
  have hcount : (info.versions.map (fun w => w.path)).count v.path = 1 :=
    List.count_eq_one_of_mem hnd hmem
  have hcp : info.versions.countP (fun w => w.path == v.path) = 1 := by
    rw [← hcount, List.count, List.countP_map]
    rfl
  simp [hcp]

/-- C4 witness: the claim applied to the `bun`-only machine. -/
theorem claim_C4_witness :
    (infoA.versions.map (fun v => v.path)).Nodup ∧
    infoA.versions.all
      (fun v => infoA.versions.countP (fun w => w.path == v.path) == 1) = true :=
  claim_C4 envA bunRule infoA (by decide) (by decide)

/-- C5: `extract_version` returns capture group 1 of the leftmost match
when a pattern is supplied and matches, `none` when it does not match;
with no pattern it returns the first capture of the generic
`(\d+\.\d+\.?\d*)` fallback or `none`; on `"node v20.11.0"` with the node
rule's `v?(\d+\.\d+\.\d+)` pattern it yields `"20.11.0"`; and on text
free of Unicode decimal digits (the class the crate's `\d` matches) the
fallback yields `none`, which the caller records as
`"unknown"`. -/
theorem claim_C5 :
    extract_version "node v20.11.0" nodeRule.version_regex = some "20.11.0" ∧
    (∀ (r : Reg) (s : String), findCapture r s.data = none →
      extract_version s (some (RegexSrc.ok r)) = none) ∧
    (∀ (r : Reg) (s : String) (cap : Option (List Char)),
      findCapture r s.data = some cap →
      extract_version s (some (RegexSrc.ok r)) = cap.map (fun l => String.mk l)) ∧
    (∀ s : String, (∀ c ∈ s.data, isNd c = false) →
      extract_version s none = none ∧
      (extract_version s none).getD "unknown" = "unknown") := by
  refine ⟨by decide, ?_, ?_, ?_⟩
  · intro r s h
    have hdef : extract_version s (some (RegexSrc.ok r)) =
        match findCapture r s.data with
        | none => none
        | some cap => cap.map (fun l => String.mk l) := rfl
    rw [hdef, h]
  · intro r s cap h
    have hdef : extract_version s (some (RegexSrc.ok r)) =
        match findCapture r s.data with
        | none => none
        | some cap => cap.map (fun l => String.mk l) := rfl
    rw [hdef, h]
  · intro s h
    have h1 : extract_version s none = none := by
      unfold extract_version
      rw [findCapture_generic_none s.data h]
    exact ⟨h1, by rw [h1]; rfl⟩

/-- C5 witness: text without any Unicode decimal digit extracts to
nothing and is recorded as
`"unknown"` by the caller. -/
theorem claim_C5_witness :
    extract_version "no digits here!" none = none ∧
    (extract_version "no digits here!" none).getD "unknown" = "unknown" :=
  claim_C5.2.2.2 "no digits here!" (by decide)

/-- C6: the probed text is always exactly one of the two streams, never a
concatenation; standard error is searched precisely when standard output
is empty or whitespace-only, and standard output is searched whenever it
has any non-whitespace content. -/
theorem claim_C6 :
    (∀ out err : String, chooseOutput out err = out ∨ chooseOutput out err = err) ∧
    (∀ out err : String, out.data.all isWS = true → chooseOutput out err = err) ∧
    (∀ out err : String, out.data.all isWS = false → chooseOutput out err = out) := by
  refine ⟨?_, chooseOutput_ws, chooseOutput_not_ws⟩
  intro out err
  unfold chooseOutput
  by_cases h : (trimList out.data).isEmpty = true
  · rw [if_pos h]
    exact Or.inr rfl
  · rw [if_neg h]
    exact Or.inl rfl

/-- C6 witness: whitespace-only stdout routes extraction to stderr;
non-whitespace stdout is used as-is. -/
theorem claim_C6_witness :
    chooseOutput " \n " "v 1.2 from stderr" = "v 1.2 from stderr" ∧
    chooseOutput "v 3.4" "ignored" = "v 3.4" :=
  ⟨claim_C6.2.1 " \n " "v 1.2 from stderr" (by decide),
   claim_C6.2.2 "v 3.4" "ignored" (by decide)⟩

/-- Single-candidate rule whose probe yields nothing and with no shadow
paths: detection is empty. -/
lemma detect_single_noout (env : Env) (rule : ToolRule) (c p : String)
    (hc : rule.commands = [c]) (hres : env.resolve c = some p)
    (hx : env.exec c rule.version_args = none)
    (hshadow : get_windows_extra_paths env.win rule.id = []) :
    detect_tool env rule = none := by
  rw [detect_tool_none_iff, detectVersions_def, hshadow]
  show (detectCandidates env rule).1 = []
  unfold detectCandidates
  rw [hc, candLoop_cons_noout env rule c p [] [] [] hres (List.not_mem_nil p) hx]
  rfl

/-- Single-candidate rule whose probe yields output that the pattern
cannot parse, with no shadow paths: one version `"unknown"`, status
`"installed"`. -/
lemma detect_single_unknown (env : Env) (rule : ToolRule) (c p out err : String)
    (hc : rule.commands = [c]) (hres : env.resolve c = some p)
    (hx : env.exec c rule.version_args = some (out, err))
    (hextr : extract_version (chooseOutput out err) rule.version_regex = none)
    (hshadow : get_windows_extra_paths env.win rule.id = []) :
    detect_tool env rule =
      some (ToolInfo.mk rule.id rule.name rule.category
        [ToolVersion.mk "unknown" p true] "installed") := by
  have hcand : detectCandidates env rule = ([ToolVersion.mk "unknown" p true], [p]) := by
    unfold detectCandidates
    rw [hc, candLoop_cons_push env rule c p out err [] [] [] hres (List.not_mem_nil p) hx]
    simp [candLoop, hextr]
  unfold detect_tool
  rw [detectVersions_def, hshadow, hcand]
  rfl

/-- C7 counterexample: a probe whose child exits with a non-zero status
but still prints a version is *not* treated as an execution failure: the
source never inspects the exit status, so `execute_command` returns the
output and `detect_tool` records a Tool Version for that candidate —
refuting "no Tool Version is recorded when the process exits non-zero". -/
theorem claim_C7_counterexample :
    execute_command (ChildBehavior.exits false "1.2.3\n" "") =
      ExecOutcome.success "1.2.3\n" "" ∧
    detect_tool env7 bunRule =
      some (ToolInfo.mk "bun" "Bun" "runtime"
        [ToolVersion.mk "1.2.3" "/usr/bin/bun" true] "installed") := by
  exact ⟨rfl, by decide⟩

/-- C7 amended: a probe records no Tool Version when the process fails to
spawn or `execute_command` returns no output (there is no timeout, and a
non-zero exit status is not inspected: an exiting child's output is used
whatever its status); when output is captured but the pattern finds no
version, a Tool Version `"unknown"` is recorded and the tool is still
reported as installed — the two failure kinds remain distinct. -/
theorem claim_C7_amended :
    (execute_command ChildBehavior.spawnFail = ExecOutcome.failure) ∧
    (∀ (ok : Bool) (out err : String),
      execute_command (ChildBehavior.exits ok out err) = ExecOutcome.success out err) ∧
    (∀ (env : Env) (rule : ToolRule) (c p : String),
      rule.commands = [c] → env.resolve c = some p →
      env.exec c rule.version_args = none →
      get_windows_extra_paths env.win rule.id = [] →
      detect_tool env rule = none) ∧
    (∀ (env : Env) (rule : ToolRule) (c p out err : String),
      rule.commands = [c] → env.resolve c = some p →
      env.exec c rule.version_args = some (out, err) →
      extract_version (chooseOutput out err) rule.version_regex = none →
      get_windows_extra_paths env.win rule.id = [] →
      detect_tool env rule =
        some (ToolInfo.mk rule.id rule.name rule.category
          [ToolVersion.mk "unknown" p true] "installed")) := by
  refine ⟨rfl, fun ok out err => rfl, ?_, ?_⟩
  · intro env rule c p hc hres hx hshadow
    exact detect_single_noout env rule c p hc hres hx hshadow
  · intro env rule c p out err hc hres hx hextr hshadow
    exact detect_single_unknown env rule c p out err hc hres hx hextr hshadow

/-- C7 witness: on `envNoOut` the `bun` probe yields nothing and no
version is recorded; on `envGib` the probe output parses to nothing and
an `"unknown"` installed version is recorded. -/
theorem claim_C7_witness :
    detect_tool envNoOut bunRule = none ∧
    detect_tool envGib bunRule =
      some (ToolInfo.mk "bun" "Bun" "runtime"
        [ToolVersion.mk "unknown" "/usr/bin/bun" true] "installed") :=
  ⟨claim_C7_amended.2.2.1 envNoOut bunRule "bun" "/usr/bin/bun"
     rfl (by decide) (by decide) (by decide),
   claim_C7_amended.2.2.2 envGib bunRule "bun" "/usr/bin/bun" "no semantic version here" ""
     rfl (by decide) (by decide) (by decide) (by decide)⟩

/-- C8: a pattern that failed to compile behaves exactly like a pattern
that did not match: `extract_version` totally (no panic) returns `none`,
the caller maps that to `"unknown"`, and a tool probed under such a rule
is still reported as installed with version `"unknown"`. -/
theorem claim_C8 :
    (∀ s : String, extract_version s (some RegexSrc.bad) = none) ∧
    (∀ s : String, (extract_version s (some RegexSrc.bad)).getD "unknown" = "unknown") ∧
    (∀ (env : Env) (rule : ToolRule) (c p out err : String),
      rule.version_regex = some RegexSrc.bad →
      rule.commands = [c] → env.resolve c = some p →
      env.exec c rule.version_args = some (out, err) →
      get_windows_extra_paths env.win rule.id = [] →
      detect_tool env rule =
        some (ToolInfo.mk rule.id rule.name rule.category
          [ToolVersion.mk "unknown" p true] "installed")) := by
  refine ⟨fun s => rfl, fun s => rfl, ?_⟩
  intro env rule c p out err hbad hc hres hx hshadow
  refine detect_single_unknown env rule c p out err hc hres hx ?_ hshadow
  rw [hbad]
  rfl

/-- C8 witness: detection under the malformed-pattern rule on a machine
where its command resolves and prints unparseable text. -/
theorem claim_C8_witness :
    detect_tool env8 badRule =
      some (ToolInfo.mk "mystery" "Mystery" "misc"
        [ToolVersion.mk "unknown" "/opt/mystery" true] "installed") :=
  claim_C8.2.2 env8 badRule "mystery" "/opt/mystery" "gibberish output" ""
    rfl rfl (by decide) (by decide) (by decide)

/-- C9: the scan is a pure function of the machine state: two runs over
the same environment — modeled as two traversals of the rule catalog in
any two completion orders of the parallel workers — produce
permutation-equal (hence set-equal) result lists, and either one is a
permutation of `scan_all_tools`'s catalog-order output. -/
theorem claim_C9 :
    ∀ (env : Env) (r1 r2 : List ToolRule),
      r1.Perm get_tool_rules → r2.Perm get_tool_rules →
      (scanToolsInOrder env r1).Perm (scanToolsInOrder env r2) ∧
      (scanToolsInOrder env r1).Perm (scan_all_tools env) := by
  intro env r1 r2 h1 h2
  exact ⟨(h1.trans h2.symm).filterMap (detect_tool env), h1.filterMap (detect_tool env)⟩

/-- C9 witness: catalog order versus reversed order on the empty
machine. -/
theorem claim_C9_witness :
    (scanToolsInOrder env0 get_tool_rules).Perm
      (scanToolsInOrder env0 get_tool_rules.reverse) ∧
    (scanToolsInOrder env0 get_tool_rules).Perm (scan_all_tools env0) :=
  claim_C9 env0 get_tool_rules get_tool_rules.reverse
    (List.Perm.refl get_tool_rules) (List.reverse_perm get_tool_rules)

/-- C10: a resolved path enters the seen-path set before its probe runs,
so when the first candidate resolving to path `p` probes with no output,
no later candidate resolving to `p` is probed and the rule records no
version with path `p` at all — even if the later candidate's probe would
have produced output. -/
theorem claim_C10 :
    ∀ (env : Env) (rule : ToolRule) (pre : List String) (c : String)
      (post : List String) (p : String) (info : ToolInfo),
      rule.commands = pre ++ c :: post →
      env.resolve c = some p →
      (∀ c' ∈ pre, env.resolve c' ≠ some p) →
      env.exec c rule.version_args = none →
      detect_tool env rule = some info →
      info.versions.all (fun v => !(v.path == p)) = true := by
  intro env rule pre c post p info hsplit hres hpre hx hdet
  obtain ⟨-, hv, -, -⟩ := detect_tool_some_shape env rule info hdet
  have hpnotfd : p ∉ (candLoop env rule pre [] []).2 := by
    intro hmem
    rcases candLoop_found_src env rule pre [] [] p hmem with h | ⟨c', hc', h'⟩
    · exact absurd h (List.not_mem_nil p)
    · exact hpre c' hc' h'
  have hsplit2 : candLoop env rule rule.commands [] [] =
      candLoop env rule post (candLoop env rule pre [] []).1
        (p :: (candLoop env rule pre [] []).2) := by
    rw [hsplit, candLoop_append env rule pre (c :: post) [] [],
      candLoop_cons_noout env rule c p post _ _ hres hpnotfd hx]
  have hvs0 : ∀ v ∈ (candLoop env rule pre [] []).1, v.path ≠ p := by
    intro v hv0 hvp
    have hin : v.path ∈ (candLoop env rule pre [] []).2 :=
      candLoop_paths_found env rule pre [] []
        (fun v h => absurd h (List.not_mem_nil v)) v hv0
    exact hpnotfd (hvp ▸ hin)
  have hcand : ∀ v ∈ (detectCandidates env rule).1, v.path ≠ p := by
    unfold detectCandidates
    rw [hsplit2]
    exact candLoop_avoid env rule post _ _ p (List.mem_cons_self _ _) hvs0
  have hfound : p ∈ (detectCandidates env rule).2 := by
    unfold detectCandidates
    rw [hsplit2]
    exact candLoop_found_super env rule post _ _ p (List.mem_cons_self _ _)
  have hall : ∀ v ∈ detectVersions env rule, v.path ≠ p := by
    rw [detectVersions_def]
    exact shadowLoop_avoid env rule _ _ _ p hfound hcand
  rw [hv, List.all_eq_true]
  intro v hv2
  simpa using hall v hv2

/-- C10 witness: on `env10`, `python` and `python3` resolve to the same
interpreter; the probe under the name `python` yields nothing, the probe
under `python3` would yield output, yet the emitted Tool Info records no
version for that path. -/
theorem claim_C10_witness :
    info10.versions.all (fun v => !(v.path == "/venv/bin/python")) = true :=
  claim_C10 env10 pythonRule [] "python" ["python3", "py"] "/venv/bin/python" info10
    rfl (by decide)
    (fun c' hc' => absurd hc' (List.not_mem_nil c'))
    (by decide) (by decide)
